import Mathlib

/-!
Verification of the Mergington High School activities backend (`src/app.py`).

The program is a thin CRUD layer over a two-table relational store:
a table `activities` (primary key `name`) and a table
`activity_registrations` (composite primary key `(activity_name, email)`).
We embed the store as a `DBState` record holding the rows of both tables,
and each request handler as a pure function on `DBState`.  `ORDER BY`
clauses are embedded using `List.insertionSort`, and SQL `WHERE` clauses
as list filters; `fetchone` on a `SELECT` becomes `List.find?`.
-/

namespace SchoolApp

/-- A row of the `activities` table. -/
structure Activity where
  name : String
  description : String
  schedule : String
  max_participants : Nat
deriving DecidableEq, Repr

/-- The persistent store: the rows of the two tables, in insertion order. -/
structure DBState where
  activities : List Activity
  registrations : List (String × String)
deriving DecidableEq, Repr

/-- An HTTPException as raised by the handlers. -/
structure HTTPError where
  status_code : Nat
  detail : String
deriving DecidableEq, Repr

/-- The per-activity view assembled by `load_activities`. -/
structure ActivityView where
  description : String
  schedule : String
  max_participants : Nat
  participants : List String
deriving DecidableEq, Repr

/-- One entry of the `DEFAULT_ACTIVITIES` seed dictionary. -/
structure SeedActivity where
  name : String
  description : String
  schedule : String
  max_participants : Nat
  participants : List String

/-- The `DEFAULT_ACTIVITIES` dictionary of `app.py`, in insertion order. -/
def DEFAULT_ACTIVITIES : List SeedActivity :=
  [ { name := "Chess Club"
      description := "Learn strategies and compete in chess tournaments"
      schedule := "Fridays, 3:30 PM - 5:00 PM"
      max_participants := 12
      participants := ["michael@mergington.edu", "daniel@mergington.edu"] },
    { name := "Programming Class"
      description := "Learn programming fundamentals and build software projects"
      schedule := "Tuesdays and Thursdays, 3:30 PM - 4:30 PM"
      max_participants := 20
      participants := ["emma@mergington.edu", "sophia@mergington.edu"] },
    { name := "Gym Class"
      description := "Physical education and sports activities"
      schedule := "Mondays, Wednesdays, Fridays, 2:00 PM - 3:00 PM"
      max_participants := 30
      participants := ["john@mergington.edu", "olivia@mergington.edu"] },
    { name := "Soccer Team"
      description := "Join the school soccer team and compete in matches"
      schedule := "Tuesdays and Thursdays, 4:00 PM - 5:30 PM"
      max_participants := 22
      participants := ["liam@mergington.edu", "noah@mergington.edu"] },
    { name := "Basketball Team"
      description := "Practice and play basketball with the school team"
      schedule := "Wednesdays and Fridays, 3:30 PM - 5:00 PM"
      max_participants := 15
      participants := ["ava@mergington.edu", "mia@mergington.edu"] },
    { name := "Art Club"
      description := "Explore your creativity through painting and drawing"
      schedule := "Thursdays, 3:30 PM - 5:00 PM"
      max_participants := 15
      participants := ["amelia@mergington.edu", "harper@mergington.edu"] },
    { name := "Drama Club"
      description := "Act, direct, and produce plays and performances"
      schedule := "Mondays and Wednesdays, 4:00 PM - 5:30 PM"
      max_participants := 20
      participants := ["ella@mergington.edu", "scarlett@mergington.edu"] },
    { name := "Math Club"
      description := "Solve challenging problems and participate in math competitions"
      schedule := "Tuesdays, 3:30 PM - 4:30 PM"
      max_participants := 10
      participants := ["james@mergington.edu", "benjamin@mergington.edu"] },
    { name := "Debate Team"
      description := "Develop public speaking and argumentation skills"
      schedule := "Fridays, 4:00 PM - 5:30 PM"
      max_participants := 12
      participants := ["charlotte@mergington.edu", "henry@mergington.edu"] } ]

/-- A freshly created database: both tables exist and are empty. -/
def emptyDB : DBState := { activities := [], registrations := [] }

/-- `init_db` of `app.py`: counts the rows of `activities`; if the count is
zero it inserts every activity of `DEFAULT_ACTIVITIES` together with its
initial participant registrations, otherwise it changes nothing.
(Table creation is `CREATE TABLE IF NOT EXISTS`, a no-op on the state.) -/
def init_db (s : DBState) : DBState :=
  if s.activities.length = 0 then
    { activities := s.activities ++ DEFAULT_ACTIVITIES.map
        (fun a => { name := a.name, description := a.description,
                    schedule := a.schedule,
                    max_participants := a.max_participants }),
      registrations := s.registrations ++ DEFAULT_ACTIVITIES.flatMap
        (fun a => a.participants.map (fun email => (a.name, email))) }
  else s

/-- Lexicographic comparison of character lists by codepoint.  SQLite's
default BINARY collation compares UTF-8 byte sequences, and UTF-8 byte
order coincides with codepoint order, so this is the order every
`ORDER BY` of the program uses on `TEXT` columns. -/
def lexLt : List Char → List Char → Bool
  | _, [] => false
  | [], _ :: _ => true
  | c :: cs, d :: ds =>
    c.toNat < d.toNat || (c.toNat == d.toNat && lexLt cs ds)

/-- Strict BINARY-collation order on strings. -/
def strLt (s t : String) : Prop := lexLt s.data t.data = true

/-- Reflexive BINARY-collation order on strings. -/
def strLe (s t : String) : Prop := strLt s t ∨ s = t

instance : DecidableRel strLt :=
  fun _ _ => inferInstanceAs (Decidable (_ = _))

instance : DecidableRel strLe :=
  fun _ _ => inferInstanceAs (Decidable (_ ∨ _))

/-- `ORDER BY name` on the `activities` table. -/
def nameLe (a b : Activity) : Prop := strLe a.name b.name

instance : DecidableRel nameLe :=
  fun a b => inferInstanceAs (Decidable (strLe a.name b.name))

/-- `ORDER BY activity_name, email` on the `activity_registrations` table:
lexicographic order on the pair. -/
def regLe (p q : String × String) : Prop :=
  strLt p.1 q.1 ∨ (p.1 = q.1 ∧ strLe p.2 q.2)

instance : DecidableRel regLe :=
  fun _ _ => inferInstanceAs (Decidable (_ ∨ _))

/-- `load_activities` of `app.py`: reads the activities ordered by name and
the registrations ordered by `(activity_name, email)`, groups the
registrations by activity name (grouping a sorted list preserves its order,
so the group of an activity is the filter of the sorted list), and builds
the name-keyed catalog in activity-name order. -/
def load_activities (s : DBState) : List (String × ActivityView) :=
  let activity_rows := List.insertionSort nameLe s.activities
  let registrations := List.insertionSort regLe s.registrations
  activity_rows.map (fun row =>
    (row.name,
      { description := row.description
        schedule := row.schedule
        max_participants := row.max_participants
        participants :=
          (registrations.filter (fun r => r.1 == row.name)).map Prod.snd }))

/-- The `GET /activities` handler: returns `load_activities()` and leaves
the store untouched. -/
def get_activities (s : DBState) : List (String × ActivityView) × DBState :=
  (load_activities s, s)

/-- `signup_for_activity` of `app.py`.  Returns the JSON message or the
raised `HTTPException`, paired with the resulting store (an exception rolls
the transaction back, so the store is returned unchanged on failure). -/
def signup_for_activity (s : DBState) (activity_name email : String) :
    Except HTTPError String × DBState :=
  match s.activities.find? (fun a => a.name == activity_name) with
  | none => (Except.error { status_code := 404, detail := "Activity not found" }, s)
  | some _ =>
    match s.registrations.find? (fun r => r.1 == activity_name && r.2 == email) with
    | some _ =>
      (Except.error { status_code := 400, detail := "Student is already signed up" }, s)
    | none =>
      (Except.ok ("Signed up " ++ email ++ " for " ++ activity_name),
       { s with registrations := s.registrations ++ [(activity_name, email)] })

/-- `unregister_from_activity` of `app.py`.  The SQL `DELETE` removes every
row matching the pair; `rowcount` is the number of removed rows, and a zero
rowcount raises (rolling back the empty deletion). -/
def unregister_from_activity (s : DBState) (activity_name email : String) :
    Except HTTPError String × DBState :=
  match s.activities.find? (fun a => a.name == activity_name) with
  | none => (Except.error { status_code := 404, detail := "Activity not found" }, s)
  | some _ =>
    let remaining :=
      s.registrations.filter (fun r => !(r.1 == activity_name && r.2 == email))
    if s.registrations.length - remaining.length = 0 then
      (Except.error { status_code := 400,
                      detail := "Student is not signed up for this activity" }, s)
    else
      (Except.ok ("Unregistered " ++ email ++ " from " ++ activity_name),
       { s with registrations := remaining })

/-- The states reachable from a fresh store through the program's
operations: bootstrap, the read endpoint, signup and unregister (each
mutator taken at any arguments, keeping whatever state it returns). -/
inductive Reachable : DBState → Prop
  | empty : Reachable emptyDB
  | init {s} : Reachable s → Reachable (init_db s)
  | read {s} : Reachable s → Reachable (get_activities s).2
  | signup {s} (a e : String) : Reachable s → Reachable (signup_for_activity s a e).2
  | unregister {s} (a e : String) : Reachable s → Reachable (unregister_from_activity s a e).2

/-! ### Order theory for the embedded collation -/

theorem lexLt_irrefl : ∀ l : List Char, lexLt l l = false
  | [] => rfl
  | c :: cs => by simp [lexLt, lexLt_irrefl cs]

theorem lexLt_trans :
    ∀ l1 l2 l3 : List Char, lexLt l1 l2 = true → lexLt l2 l3 = true →
      lexLt l1 l3 = true := by
  intro l1
  induction l1 with
  | nil =>
    intro l2 l3 h1 h2
    cases l2 with
    | nil => simp [lexLt] at h1
    | cons c2 t2 =>
      cases l3 with
      | nil => simp [lexLt] at h2
      | cons c3 t3 => simp [lexLt]
  | cons c1 t1 ih =>
    intro l2 l3 h1 h2
    cases l2 with
    | nil => simp [lexLt] at h1
    | cons c2 t2 =>
      cases l3 with
      | nil => simp [lexLt] at h2
      | cons c3 t3 =>
        simp only [lexLt, Bool.or_eq_true, Bool.and_eq_true, beq_iff_eq,
          decide_eq_true_eq] at h1 h2 ⊢
        rcases h1 with h1 | ⟨e1, r1⟩
        · rcases h2 with h2 | ⟨e2, r2⟩
          · exact Or.inl (Nat.lt_trans h1 h2)
          · exact Or.inl (e2 ▸ h1)
        · rcases h2 with h2 | ⟨e2, r2⟩
          · exact Or.inl (e1 ▸ h2)
          · exact Or.inr ⟨e1.trans e2, ih t2 t3 r1 r2⟩

theorem lexLt_trichotomy :
    ∀ l1 l2 : List Char, lexLt l1 l2 = true ∨ l1 = l2 ∨ lexLt l2 l1 = true := by
  intro l1
  induction l1 with
  | nil =>
    intro l2
    cases l2 with
    | nil => exact Or.inr (Or.inl rfl)
    | cons c2 t2 => exact Or.inl (by simp [lexLt])
  | cons c1 t1 ih =>
    intro l2
    cases l2 with
    | nil => exact Or.inr (Or.inr (by simp [lexLt]))
    | cons c2 t2 =>
      rcases Nat.lt_trichotomy c1.toNat c2.toNat with hlt | heq | hgt
      · exact Or.inl (by simp [lexLt, hlt])
      · have hc : c1 = c2 := Char.ext (UInt32.toNat.inj heq)
        rcases ih t2 with h | h | h
        · exact Or.inl (by simp [lexLt, heq, h])
        · exact Or.inr (Or.inl (by rw [hc, h]))
        · exact Or.inr (Or.inr (by simp [lexLt, heq.symm, h]))
      · exact Or.inr (Or.inr (by simp [lexLt, hgt]))

theorem String.data_injective {s t : String} (h : s.data = t.data) : s = t := by
  cases s; cases t; exact congrArg String.mk h

theorem strLt_irrefl (s : String) : ¬ strLt s s := by
  simp [strLt, lexLt_irrefl]

theorem strLt_trans {s t u : String} (h1 : strLt s t) (h2 : strLt t u) :
    strLt s u :=
  lexLt_trans s.data t.data u.data h1 h2

theorem strLt_trichotomy (s t : String) : strLt s t ∨ s = t ∨ strLt t s := by
  rcases lexLt_trichotomy s.data t.data with h | h | h
  · exact Or.inl h
  · exact Or.inr (Or.inl (String.data_injective h))
  · exact Or.inr (Or.inr h)

theorem strLe_total (s t : String) : strLe s t ∨ strLe t s := by
  rcases strLt_trichotomy s t with h | h | h
  · exact Or.inl (Or.inl h)
  · exact Or.inl (Or.inr h)
  · exact Or.inr (Or.inl h)

theorem strLe_trans {s t u : String} (h1 : strLe s t) (h2 : strLe t u) :
    strLe s u := by
  rcases h1 with h1 | rfl
  · rcases h2 with h2 | rfl
    · exact Or.inl (strLt_trans h1 h2)
    · exact Or.inl h1
  · exact h2

instance : IsTotal Activity nameLe := ⟨fun a b => strLe_total a.name b.name⟩

instance : IsTrans Activity nameLe := ⟨fun _ _ _ => strLe_trans⟩

instance : IsTotal (String × String) regLe := by
  constructor
  intro p q
  rcases strLt_trichotomy p.1 q.1 with h | h | h
  · exact Or.inl (Or.inl h)
  · rcases strLe_total p.2 q.2 with h2 | h2
    · exact Or.inl (Or.inr ⟨h, h2⟩)
    · exact Or.inr (Or.inr ⟨h.symm, h2⟩)
  · exact Or.inr (Or.inl h)

instance : IsTrans (String × String) regLe := by
  constructor
  intro p q r h1 h2
  rcases h1 with h1 | ⟨e1, l1⟩
  · rcases h2 with h2 | ⟨e2, l2⟩
    · exact Or.inl (strLt_trans h1 h2)
    · exact Or.inl (e2 ▸ h1)
  · rcases h2 with h2 | ⟨e2, l2⟩
    · exact Or.inl (e1 ▸ h2)
    · exact Or.inr ⟨e1.trans e2, strLe_trans l1 l2⟩

/-! ### Helper lemmas about the queries inside the handlers -/

theorem find_activity_some {s : DBState} {A : String}
    (hA : ∃ a ∈ s.activities, a.name = A) :
    ∃ x, s.activities.find? (fun a => a.name == A) = some x := by
  have h : (s.activities.find? (fun a => a.name == A)).isSome := by
    rw [List.find?_isSome]
    obtain ⟨a, ha, hn⟩ := hA
    exact ⟨a, ha, by simp [hn]⟩
  exact Option.isSome_iff_exists.mp h

theorem find_activity_none {s : DBState} {A : String}
    (hA : ∀ a ∈ s.activities, a.name ≠ A) :
    s.activities.find? (fun a => a.name == A) = none := by
  rw [List.find?_eq_none]
  intro a ha
  simp [hA a ha]

theorem find_reg_none {regs : List (String × String)} {A e : String}
    (h : (A, e) ∉ regs) :
    regs.find? (fun r => r.1 == A && r.2 == e) = none := by
  rw [List.find?_eq_none]
  intro r hr
  simp only [Bool.and_eq_true, beq_iff_eq, not_and]
  intro h1 h2
  exact h (by rw [← h1, ← h2]; simpa using hr)

theorem find_reg_some {regs : List (String × String)} {A e : String}
    (h : (A, e) ∈ regs) :
    ∃ x, regs.find? (fun r => r.1 == A && r.2 == e) = some x := by
  have h' : (regs.find? (fun r => r.1 == A && r.2 == e)).isSome := by
    rw [List.find?_isSome]
    exact ⟨(A, e), h, by simp⟩
  exact Option.isSome_iff_exists.mp h'

theorem length_filter_lt_of_mem {α : Type} {p : α → Bool} {l : List α} {a : α}
    (h : a ∈ l) (hp : p a = false) : (l.filter p).length < l.length := by
  rw [← List.countP_eq_length_filter]
  refine Nat.lt_of_le_of_ne (List.countP_le_length p) ?_
  intro hEq
  have h' := List.countP_eq_length.mp hEq a h
  rw [hp] at h'
  exact Bool.false_ne_true h'

/-- A successful signup: the handler returns the confirmation message and
appends exactly the row `(A, e)` to the registrations table. -/
theorem signup_success {s : DBState} {A e : String}
    (hA : ∃ a ∈ s.activities, a.name = A)
    (he : (A, e) ∉ s.registrations) :
    signup_for_activity s A e =
      (Except.ok ("Signed up " ++ e ++ " for " ++ A),
       { s with registrations := s.registrations ++ [(A, e)] }) := by
  obtain ⟨x, hx⟩ := find_activity_some hA
  simp [signup_for_activity, hx, find_reg_none he]

/-- A duplicate signup: the handler raises 400 and leaves the store as is. -/
theorem signup_duplicate {s : DBState} {A e : String}
    (hA : ∃ a ∈ s.activities, a.name = A)
    (he : (A, e) ∈ s.registrations) :
    signup_for_activity s A e =
      (Except.error { status_code := 400, detail := "Student is already signed up" },
       s) := by
  obtain ⟨x, hx⟩ := find_activity_some hA
  obtain ⟨y, hy⟩ := find_reg_some he
  simp [signup_for_activity, hx, hy]

/-- A successful unregister: the handler returns the confirmation message
and the registrations table keeps exactly the rows different from `(A, e)`. -/
theorem unregister_success {s : DBState} {A e : String}
    (hA : ∃ a ∈ s.activities, a.name = A)
    (he : (A, e) ∈ s.registrations) :
    unregister_from_activity s A e =
      (Except.ok ("Unregistered " ++ e ++ " from " ++ A),
       { s with registrations :=
          s.registrations.filter (fun r => !(r.1 == A && r.2 == e)) }) := by
  obtain ⟨x, hx⟩ := find_activity_some hA
  have hlt : (s.registrations.filter
      (fun r => !(r.1 == A && r.2 == e))).length < s.registrations.length :=
    length_filter_lt_of_mem he (by simp)
  have hne : s.registrations.length -
      (s.registrations.filter (fun r => !(r.1 == A && r.2 == e))).length ≠ 0 :=
    Nat.sub_ne_zero_of_lt hlt
  simp only [unregister_from_activity, hx]
  rw [if_neg hne]

/-- An unregister of an absent registration: the handler raises 400 and
leaves the store as is. -/
theorem unregister_absent {s : DBState} {A e : String}
    (hA : ∃ a ∈ s.activities, a.name = A)
    (he : (A, e) ∉ s.registrations) :
    unregister_from_activity s A e =
      (Except.error { status_code := 400,
                      detail := "Student is not signed up for this activity" },
       s) := by
  obtain ⟨x, hx⟩ := find_activity_some hA
  have hfe : s.registrations.filter (fun r => !(r.1 == A && r.2 == e)) =
      s.registrations := by
    rw [List.filter_eq_self]
    intro r hr
    simp only [Bool.not_eq_true', Bool.and_eq_false_iff, beq_eq_false_iff_ne, ne_eq]
    by_contra hcon
    push_neg at hcon
    exact he (by rw [← hcon.1, ← hcon.2]; simpa using hr)
  simp only [unregister_from_activity, hx, hfe]
  rw [if_pos (Nat.sub_self _)]

theorem not_mem_of_find_reg_none {regs : List (String × String)} {A e : String}
    (h : regs.find? (fun r => r.1 == A && r.2 == e) = none) : (A, e) ∉ regs := by
  rw [List.find?_eq_none] at h
  intro hmem
  simpa using h (A, e) hmem

theorem filter_ne_eq_self {regs : List (String × String)} {A e : String}
    (he : (A, e) ∉ regs) :
    regs.filter (fun r => !(r.1 == A && r.2 == e)) = regs := by
  rw [List.filter_eq_self]
  intro r hr
  simp only [Bool.not_eq_true', Bool.and_eq_false_iff, beq_eq_false_iff_ne, ne_eq]
  by_contra hcon
  push_neg at hcon
  exact he (by rw [← hcon.1, ← hcon.2]; simpa using hr)

/-! ### The claims -/

/-- Claim C1: for every activity `A` existing in storage and every email `e`
with no registration row `(A, e)`, `signup(A, e)` succeeds, inserts exactly
the registration row `(A, e)`, and returns the confirmation message
`Signed up {email} for {activityName}`; a second `signup(A, e)` on the
resulting state fails with HTTP 400, detail `Student is already signed up`,
and leaves the store (hence the inserted rows) unchanged. -/
theorem signup_succeeds_then_rejects_duplicate (s : DBState) (A e : String)
    (hA : ∃ a ∈ s.activities, a.name = A)
    (he : (A, e) ∉ s.registrations) :
    signup_for_activity s A e =
      (Except.ok ("Signed up " ++ e ++ " for " ++ A),
       { s with registrations := s.registrations ++ [(A, e)] }) ∧
    signup_for_activity
        { s with registrations := s.registrations ++ [(A, e)] } A e =
      (Except.error { status_code := 400, detail := "Student is already signed up" },
       { s with registrations := s.registrations ++ [(A, e)] }) := by
  refine ⟨signup_success hA he, signup_duplicate hA ?_⟩
  exact List.mem_append_right _ (by simp)

/-- Witness for C1 on the freshly seeded store with activity `Chess Club`
and email `test@mergington.edu`. -/
theorem signup_succeeds_then_rejects_duplicate_witness :
    (∃ a ∈ (init_db emptyDB).activities, a.name = "Chess Club") ∧
    ("Chess Club", "test@mergington.edu") ∉ (init_db emptyDB).registrations ∧
    signup_for_activity (init_db emptyDB) "Chess Club" "test@mergington.edu" =
      (Except.ok ("Signed up " ++ "test@mergington.edu" ++ " for " ++ "Chess Club"),
       { init_db emptyDB with registrations :=
          (init_db emptyDB).registrations ++ [("Chess Club", "test@mergington.edu")] }) ∧
    signup_for_activity
        { init_db emptyDB with registrations :=
          (init_db emptyDB).registrations ++ [("Chess Club", "test@mergington.edu")] }
        "Chess Club" "test@mergington.edu" =
      (Except.error { status_code := 400, detail := "Student is already signed up" },
       { init_db emptyDB with registrations :=
          (init_db emptyDB).registrations ++ [("Chess Club", "test@mergington.edu")] }) := by
  have h := signup_succeeds_then_rejects_duplicate (init_db emptyDB)
    "Chess Club" "test@mergington.edu" (by decide) (by decide)
  exact ⟨by decide, by decide, h.1, h.2⟩

/-- Claim C3: for every activity name `A` not present in storage and every
email `e`, both `signup(A, e)` and `unregister(A, e)` fail with HTTP 404,
detail `Activity not found`, and leave the stored state unchanged. -/
theorem missing_activity_yields_404 (s : DBState) (A e : String)
    (hA : ∀ a ∈ s.activities, a.name ≠ A) :
    signup_for_activity s A e =
      (Except.error { status_code := 404, detail := "Activity not found" }, s) ∧
    unregister_from_activity s A e =
      (Except.error { status_code := 404, detail := "Activity not found" }, s) := by
  have hf := find_activity_none hA
  exact ⟨by simp [signup_for_activity, hf], by simp [unregister_from_activity, hf]⟩

/-- Witness for C3 on the freshly seeded store with the unknown activity
name `Knitting Club`. -/
theorem missing_activity_yields_404_witness :
    (∀ a ∈ (init_db emptyDB).activities, a.name ≠ "Knitting Club") ∧
    signup_for_activity (init_db emptyDB) "Knitting Club" "test@mergington.edu" =
      (Except.error { status_code := 404, detail := "Activity not found" },
       init_db emptyDB) ∧
    unregister_from_activity (init_db emptyDB) "Knitting Club" "test@mergington.edu" =
      (Except.error { status_code := 404, detail := "Activity not found" },
       init_db emptyDB) := by
  have h := missing_activity_yields_404 (init_db emptyDB)
    "Knitting Club" "test@mergington.edu" (by decide)
  exact ⟨by decide, h.1, h.2⟩

/-- Claim C4: signup followed by unregister of the same pair restores the
store to exactly its prior state. -/
theorem signup_unregister_roundtrip (s : DBState) (A e : String)
    (hA : ∃ a ∈ s.activities, a.name = A)
    (he : (A, e) ∉ s.registrations) :
    (unregister_from_activity (signup_for_activity s A e).2 A e).2 = s := by
  have h1 : (signup_for_activity s A e).2 =
      { s with registrations := s.registrations ++ [(A, e)] } := by
    rw [signup_success hA he]
  rw [h1]
  have hA' : ∃ a ∈ ({ s with registrations := s.registrations ++ [(A, e)] } :
      DBState).activities, a.name = A := hA
  have he' : (A, e) ∈ s.registrations ++ [(A, e)] :=
    List.mem_append_right _ (by simp)
  have h2 := unregister_success hA' he'
  rw [h2]
  show ({ s with registrations :=
    (s.registrations ++ [(A, e)]).filter (fun r => !(r.1 == A && r.2 == e)) } :
      DBState) = s
  rw [List.filter_append, filter_ne_eq_self he]
  simp

/-- Witness for C4 on the freshly seeded store with activity `Chess Club`
and email `test@mergington.edu`. -/
theorem signup_unregister_roundtrip_witness :
    (∃ a ∈ (init_db emptyDB).activities, a.name = "Chess Club") ∧
    ("Chess Club", "test@mergington.edu") ∉ (init_db emptyDB).registrations ∧
    (unregister_from_activity
        (signup_for_activity (init_db emptyDB) "Chess Club" "test@mergington.edu").2
        "Chess Club" "test@mergington.edu").2 = init_db emptyDB := by
  exact ⟨by decide, by decide,
    signup_unregister_roundtrip (init_db emptyDB) "Chess Club" "test@mergington.edu"
      (by decide) (by decide)⟩

/-- The number of registration rows an activity currently has. -/
def participant_count (s : DBState) (A : String) : Nat :=
  (s.registrations.filter (fun r => r.1 == A)).length

/-- Claim C8: capacity is never enforced.  For every existing activity and
unregistered email, signup succeeds; the statement carries no hypothesis
relating `participant_count` to `max_participants`, so it holds in
particular when the count equals or exceeds the capacity (the witness
exercises exactly that case). -/
theorem signup_ignores_capacity (s : DBState) (A e : String) (act : Activity)
    (hact : act ∈ s.activities) (hname : act.name = A)
    (he : (A, e) ∉ s.registrations) :
    (signup_for_activity s A e).1 =
      Except.ok ("Signed up " ++ e ++ " for " ++ A) ∧
    participant_count (signup_for_activity s A e).2 A =
      participant_count s A + 1 := by
  have h := signup_success ⟨act, hact, hname⟩ he
  rw [h]
  refine ⟨rfl, ?_⟩
  show participant_count
    ({ s with registrations := s.registrations ++ [(A, e)] } : DBState) A =
      participant_count s A + 1
  simp [participant_count, List.filter_append]

/-- Witness for C8: a state holding an activity with capacity 1 and two
registered participants; the third signup still succeeds, confirming that
`max_participants` is never checked. -/
theorem signup_ignores_capacity_witness :
    (({ name := "Tiny Club", description := "d", schedule := "s",
        max_participants := 1 } : Activity) ∈
      (DBState.mk [{ name := "Tiny Club", description := "d", schedule := "s",
                     max_participants := 1 }]
        [("Tiny Club", "a@mergington.edu"),
         ("Tiny Club", "b@mergington.edu")]).activities) ∧
    (({ name := "Tiny Club", description := "d", schedule := "s",
        max_participants := 1 } : Activity).name = "Tiny Club") ∧
    (("Tiny Club", "c@mergington.edu") ∉
      (DBState.mk [{ name := "Tiny Club", description := "d", schedule := "s",
                     max_participants := 1 }]
        [("Tiny Club", "a@mergington.edu"),
         ("Tiny Club", "b@mergington.edu")]).registrations) ∧
    (1 ≤ participant_count
      (DBState.mk [{ name := "Tiny Club", description := "d", schedule := "s",
                     max_participants := 1 }]
        [("Tiny Club", "a@mergington.edu"),
         ("Tiny Club", "b@mergington.edu")]) "Tiny Club") ∧
    (signup_for_activity
      (DBState.mk [{ name := "Tiny Club", description := "d", schedule := "s",
                     max_participants := 1 }]
        [("Tiny Club", "a@mergington.edu"),
         ("Tiny Club", "b@mergington.edu")])
      "Tiny Club" "c@mergington.edu").1 =
      Except.ok ("Signed up " ++ "c@mergington.edu" ++ " for " ++ "Tiny Club") := by
  have h := signup_ignores_capacity
    (DBState.mk [{ name := "Tiny Club", description := "d", schedule := "s",
                   max_participants := 1 }]
      [("Tiny Club", "a@mergington.edu"), ("Tiny Club", "b@mergington.edu")])
    "Tiny Club" "c@mergington.edu"
    { name := "Tiny Club", description := "d", schedule := "s",
      max_participants := 1 }
    (by decide) (by decide) (by decide)
  exact ⟨by decide, by decide, by decide, by decide, h.1⟩

theorem countP_eq_one_of_nodup {α : Type} {p : α → Bool} {l : List α} {a : α}
    (hnd : l.Nodup) (ha : a ∈ l) (hpa : p a = true)
    (huniq : ∀ b ∈ l, p b = true → b = a) :
    l.countP p = 1 := by
  induction l with
  | nil => cases ha
  | cons x t ih =>
    rw [List.nodup_cons] at hnd
    rcases List.mem_cons.mp ha with rfl | hat
    · have ht : t.countP p = 0 := by
        rw [List.countP_eq_zero]
        intro b hb hpb
        exact absurd (((huniq b (List.mem_cons_of_mem _ hb) hpb)) ▸ hb) hnd.1
      rw [List.countP_cons, ht, hpa]
      simp
    · have hx : p x = false := by
        by_contra hpx
        have hxa : x = a := huniq x (List.mem_cons_self x t)
          (Bool.not_eq_false _ ▸ Bool.of_not_eq_false hpx)
        exact hnd.1 (hxa ▸ hat)
      rw [List.countP_cons, hx]
      simpa using ih hnd.2 hat
        (fun b hb hpb => huniq b (List.mem_cons_of_mem _ hb) hpb)

theorem length_filter_split {α : Type} (p : α → Bool) (l : List α) :
    l.length = (l.filter p).length + (l.filter (fun a => !(p a))).length := by
  induction l with
  | nil => rfl
  | cons x t ih =>
    by_cases hx : p x
    all_goals simp [List.filter_cons, hx]
    all_goals omega

/-- Claim C2: for every activity `A` existing in storage and every email `e`
registered for `A` (the registrations table being duplicate-free, as its
composite primary key guarantees), `unregister(A, e)` succeeds, removing
exactly the one row `(A, e)` — the remaining table is the filter dropping
`(A, e)`, it is one row shorter, no `(A, e)` row survives, every other row
survives — and returns the confirmation naming email and activity; a second
`unregister(A, e)` on the resulting state fails with HTTP 400, detail
`Student is not signed up for this activity`. -/
theorem unregister_succeeds_once_then_rejects (s : DBState) (A e : String)
    (hA : ∃ a ∈ s.activities, a.name = A)
    (he : (A, e) ∈ s.registrations)
    (hnd : s.registrations.Nodup) :
    unregister_from_activity s A e =
      (Except.ok ("Unregistered " ++ e ++ " from " ++ A),
       { s with registrations :=
          s.registrations.filter (fun r => !(r.1 == A && r.2 == e)) }) ∧
    (s.registrations.filter (fun r => !(r.1 == A && r.2 == e))).length + 1 =
      s.registrations.length ∧
    (A, e) ∉ s.registrations.filter (fun r => !(r.1 == A && r.2 == e)) ∧
    (∀ r ∈ s.registrations, r ≠ (A, e) →
      r ∈ s.registrations.filter (fun r => !(r.1 == A && r.2 == e))) ∧
    unregister_from_activity
        { s with registrations :=
          s.registrations.filter (fun r => !(r.1 == A && r.2 == e)) } A e =
      (Except.error { status_code := 400,
                      detail := "Student is not signed up for this activity" },
       { s with registrations :=
          s.registrations.filter (fun r => !(r.1 == A && r.2 == e)) }) := by
  have hnotmem : (A, e) ∉
      s.registrations.filter (fun r => !(r.1 == A && r.2 == e)) := by
    simp [List.mem_filter]
  refine ⟨unregister_success hA he, ?_, hnotmem, ?_, unregister_absent hA hnotmem⟩
  · have hcnt : (s.registrations.filter (fun r => r.1 == A && r.2 == e)).length = 1 := by
      rw [← List.countP_eq_length_filter]
      refine countP_eq_one_of_nodup hnd he (by simp) ?_
      intro b hb hpb
      simp only [Bool.and_eq_true, beq_iff_eq] at hpb
      calc b = (b.1, b.2) := rfl
        _ = (A, e) := by rw [hpb.1, hpb.2]
    have hsplit := length_filter_split (fun r => r.1 == A && r.2 == e) s.registrations
    omega
  · intro r hr hne
    refine List.mem_filter.mpr ⟨hr, ?_⟩
    simp only [Bool.not_eq_true', Bool.and_eq_false_iff, beq_eq_false_iff_ne, ne_eq]
    by_contra hcon
    push_neg at hcon
    exact hne (by calc r = (r.1, r.2) := rfl
      _ = (A, e) := by rw [hcon.1, hcon.2])

/-- Witness for C2 on the freshly seeded store with activity `Chess Club`
and the seeded email `daniel@mergington.edu`. -/
theorem unregister_succeeds_once_then_rejects_witness :
    (∃ a ∈ (init_db emptyDB).activities, a.name = "Chess Club") ∧
    ("Chess Club", "daniel@mergington.edu") ∈ (init_db emptyDB).registrations ∧
    (init_db emptyDB).registrations.Nodup ∧
    unregister_from_activity (init_db emptyDB) "Chess Club" "daniel@mergington.edu" =
      (Except.ok ("Unregistered " ++ "daniel@mergington.edu" ++ " from " ++ "Chess Club"),
       { init_db emptyDB with registrations :=
          ((init_db emptyDB).registrations.filter
            (fun r => !(r.1 == "Chess Club" && r.2 == "daniel@mergington.edu"))) }) ∧
    unregister_from_activity
        { init_db emptyDB with registrations :=
          ((init_db emptyDB).registrations.filter
            (fun r => !(r.1 == "Chess Club" && r.2 == "daniel@mergington.edu"))) }
        "Chess Club" "daniel@mergington.edu" =
      (Except.error { status_code := 400,
                      detail := "Student is not signed up for this activity" },
       { init_db emptyDB with registrations :=
          ((init_db emptyDB).registrations.filter
            (fun r => !(r.1 == "Chess Club" && r.2 == "daniel@mergington.edu"))) }) := by
  have h := unregister_succeeds_once_then_rejects (init_db emptyDB)
    "Chess Club" "daniel@mergington.edu" (by decide) (by decide) (by decide)
  exact ⟨by decide, by decide, by decide, h.1, h.2.2.2.2⟩

/-- Claim C6: bootstrap is idempotent.  On a state with at least one
activity row `init_db` changes nothing; running it twice from any starting
state equals running it once; from the empty store the activity count after
the second run is 9 and the registration rows are those of the first run. -/
theorem init_db_idempotent (s : DBState) :
    init_db (init_db s) = init_db s ∧
    (s.activities ≠ [] → init_db s = s) ∧
    (init_db (init_db emptyDB)).activities.length = 9 ∧
    (init_db (init_db emptyDB)).registrations.length =
      (init_db emptyDB).registrations.length := by
  refine ⟨?_, ?_, by decide, by decide⟩
  · by_cases h : s.activities.length = 0
    · have h9 : DEFAULT_ACTIVITIES.length = 9 := rfl
      simp [init_db, h, h9]
    · simp [init_db, h]
  · intro hne
    have h : ¬ s.activities.length = 0 := by
      simpa [List.length_eq_zero] using hne
    simp [init_db, h]

/-- Witness for C6: the freshly seeded store is nonempty and a second
bootstrap run leaves it exactly as it was. -/
theorem init_db_idempotent_witness :
    ((init_db emptyDB).activities ≠ []) ∧
    init_db (init_db emptyDB) = init_db emptyDB := by
  have h := init_db_idempotent (init_db emptyDB)
  exact ⟨by decide, h.2.1 (by decide)⟩

/-- Counterexample to claim C7 as stated: after bootstrap on the empty
store, the catalog's `Chess Club` participant list is NOT
`[michael@mergington.edu, daniel@mergington.edu]` — the read path sorts
registrations by `(activity_name, email)`, and `daniel@…` precedes
`michael@…` in that order. -/
theorem seeded_chess_participants_not_michael_first :
    ((load_activities (init_db emptyDB)).find? (fun p => p.1 == "Chess Club")).map
        (fun p => p.2.participants) ≠
      some ["michael@mergington.edu", "daniel@mergington.edu"] := by
  decide

/-- Claim C7 (amended): from the empty store, bootstrap followed by
`listActivities` yields exactly 9 entries, including an entry named
`Chess Club` whose participant list is exactly
`[daniel@mergington.edu, michael@mergington.edu]` in that (email-ascending)
order. -/
theorem seeded_catalog_nine_entries_chess_participants :
    (load_activities (init_db emptyDB)).length = 9 ∧
    ((load_activities (init_db emptyDB)).find? (fun p => p.1 == "Chess Club")).map
        (fun p => p.2.participants) =
      some ["daniel@mergington.edu", "michael@mergington.edu"] := by
  decide

/-- Claim C5: the `GET /activities` handler is a pure read.  It leaves the
store untouched, lists every stored activity exactly once with iteration
order ascending by activity name, and each entry's participant list is
ascending by email (empty when nothing is registered, since it is a filter
of the registration rows). -/
theorem get_activities_pure_sorted_complete (s : DBState) :
    (get_activities s).2 = s ∧
    List.Sorted strLe ((load_activities s).map Prod.fst) ∧
    ((load_activities s).map Prod.fst).Perm (s.activities.map Activity.name) ∧
    ∀ p ∈ load_activities s,
      List.Sorted strLe p.2.participants ∧
      p.2.participants.Perm
        ((s.registrations.filter (fun r => r.1 == p.1)).map Prod.snd) := by
  refine ⟨rfl, ?_, ?_, ?_⟩
  · exact List.Pairwise.map Prod.fst (fun p q h => h)
      (List.Pairwise.map _ (fun a b hab => hab)
        (List.sorted_insertionSort nameLe s.activities))
  · have hmm : (load_activities s).map Prod.fst =
        (List.insertionSort nameLe s.activities).map (fun row => row.name) := by
      simp only [load_activities, List.map_map]
      rfl
    rw [hmm]
    exact (List.perm_insertionSort nameLe s.activities).map (fun row => row.name)
  · intro p hp
    simp only [load_activities, List.mem_map] at hp
    obtain ⟨row, hrow, rfl⟩ := hp
    have hreg : List.Pairwise regLe (List.insertionSort regLe s.registrations) :=
      List.sorted_insertionSort regLe s.registrations
    have hf : List.Pairwise regLe
        ((List.insertionSort regLe s.registrations).filter
          (fun r => r.1 == row.name)) :=
      List.Pairwise.filter _ hreg
    have hsnd : List.Pairwise (fun a b : String × String => strLe a.2 b.2)
        ((List.insertionSort regLe s.registrations).filter
          (fun r => r.1 == row.name)) := by
      refine List.Pairwise.imp_of_mem ?_ hf
      intro a b ha hb hab
      have ha1 : a.1 = row.name := by simpa using (List.mem_filter.mp ha).2
      have hb1 : b.1 = row.name := by simpa using (List.mem_filter.mp hb).2
      rcases hab with h | h
      · exact absurd h (by rw [ha1, hb1]; exact strLt_irrefl _)
      · exact h.2
    refine ⟨List.Pairwise.map Prod.snd (fun a b h => h) hsnd, ?_⟩
    exact List.Perm.map Prod.snd
      (List.Perm.filter _ (List.perm_insertionSort regLe s.registrations))

/-- Referential integrity together with uniqueness of registration rows:
the invariant maintained by every operation of the program. -/
def RegIntegrity (s : DBState) : Prop :=
  s.registrations.Nodup ∧
  ∀ r ∈ s.registrations, ∃ a ∈ s.activities, a.name = r.1

theorem reachable_integrity {s : DBState} (h : Reachable s) : RegIntegrity s := by
  induction h with
  | empty =>
    refine ⟨List.nodup_nil, ?_⟩
    intro r hr
    simp [emptyDB] at hr
  | @init t _ ih =>
    by_cases hl : t.activities.length = 0
    · have hact : t.activities = [] := List.length_eq_zero.mp hl
      have hreg : t.registrations = [] := by
        rw [List.eq_nil_iff_forall_not_mem]
        intro r hr
        obtain ⟨a, ha, _⟩ := ih.2 r hr
        rw [hact] at ha
        exact (List.not_mem_nil a) ha
      have ht : t = emptyDB := by
        obtain ⟨ta, tr⟩ := t
        have h1 : ta = [] := hact
        have h2 : tr = [] := hreg
        subst h1
        subst h2
        rfl
      rw [ht]
      exact ⟨by decide, by decide⟩
    · have hni : init_db t = t := by simp [init_db, hl]
      rw [hni]
      exact ih
  | @read t _ ih => exact ih
  | @signup t a e _ ih =>
    rcases hfa : t.activities.find? (fun x => x.name == a) with _ | x
    · have hst : (signup_for_activity t a e).2 = t := by
        simp [signup_for_activity, hfa]
      rw [hst]
      exact ih
    · rcases hfr : t.registrations.find? (fun r => r.1 == a && r.2 == e) with _ | y
      · have hst : (signup_for_activity t a e).2 =
            { t with registrations := t.registrations ++ [(a, e)] } := by
          simp [signup_for_activity, hfa, hfr]
        rw [hst]
        have hnm : (a, e) ∉ t.registrations := not_mem_of_find_reg_none hfr
        constructor
        · rw [List.nodup_append]
          refine ⟨ih.1, List.nodup_singleton _, ?_⟩
          intro r hr1 hr2
          rw [List.mem_singleton] at hr2
          exact hnm (hr2 ▸ hr1)
        · intro r hr
          rcases List.mem_append.mp hr with h1 | h1
          · exact ih.2 r h1
          · rw [List.mem_singleton] at h1
            subst h1
            refine ⟨x, List.mem_of_find?_eq_some hfa, ?_⟩
            simpa using List.find?_some hfa
      · have hst : (signup_for_activity t a e).2 = t := by
          simp [signup_for_activity, hfa, hfr]
        rw [hst]
        exact ih
  | @unregister t a e _ ih =>
    rcases hfa : t.activities.find? (fun x => x.name == a) with _ | x
    · have hst : (unregister_from_activity t a e).2 = t := by
        simp [unregister_from_activity, hfa]
      rw [hst]
      exact ih
    · by_cases hc : t.registrations.length -
        (t.registrations.filter (fun r => !(r.1 == a && r.2 == e))).length = 0
      · have hst : (unregister_from_activity t a e).2 = t := by
          simp only [unregister_from_activity, hfa]
          rw [if_pos hc]
        rw [hst]
        exact ih
      · have hst : (unregister_from_activity t a e).2 =
            { t with registrations :=
              t.registrations.filter (fun r => !(r.1 == a && r.2 == e)) } := by
          simp only [unregister_from_activity, hfa]
          rw [if_neg hc]
        rw [hst]
        refine ⟨List.Nodup.filter _ ih.1, ?_⟩
        intro r hr
        exact ih.2 r (List.mem_filter.mp hr).1

theorem length_le_one_of_nodup_const {α : Type} {l : List α} (v : α)
    (hnd : l.Nodup) (hall : ∀ x ∈ l, x = v) : l.length ≤ 1 := by
  rcases l with _ | ⟨x, _ | ⟨y, t⟩⟩
  · simp
  · simp
  · exfalso
    have hx := hall x (by simp)
    have hy := hall y (by simp)
    rw [List.nodup_cons] at hnd
    exact hnd.1 (by rw [hx, ← hy]; exact List.mem_cons_self y t)

/-- Claim C9: in every state reachable from the empty store through the
program's operations, the registrations table is duplicate-free — every
`(activity_name, email)` pair appears at most once. -/
theorem reachable_registrations_unique (s : DBState) (h : Reachable s) :
    s.registrations.Nodup ∧
    ∀ A e : String,
      (s.registrations.filter (fun r => r.1 == A && r.2 == e)).length ≤ 1 := by
  have hint := reachable_integrity h
  refine ⟨hint.1, ?_⟩
  intro A e
  refine length_le_one_of_nodup_const (A, e) (List.Nodup.filter _ hint.1) ?_
  intro x hx
  have h2 := (List.mem_filter.mp hx).2
  simp only [Bool.and_eq_true, beq_iff_eq] at h2
  calc x = (x.1, x.2) := rfl
    _ = (A, e) := by rw [h2.1, h2.2]

/-- Witness for C9 on the reachable state obtained by bootstrapping the
empty store, at the seeded pair `(Chess Club, michael@mergington.edu)`. -/
theorem reachable_registrations_unique_witness :
    Reachable (init_db emptyDB) ∧
    (init_db emptyDB).registrations.Nodup ∧
    ((init_db emptyDB).registrations.filter
      (fun r => r.1 == "Chess Club" && r.2 == "michael@mergington.edu")).length ≤ 1 := by
  have hr : Reachable (init_db emptyDB) := Reachable.init Reachable.empty
  have h := reachable_registrations_unique (init_db emptyDB) hr
  exact ⟨hr, h.1, h.2 "Chess Club" "michael@mergington.edu"⟩

/-- Claim C10: signup neither validates nor normalizes the email.  For any
string `e` — well-formed address or not — an unregistered signup succeeds
and afterwards `e` itself occurs in the activity's participant list as
produced by the read path. -/
theorem signup_stores_email_verbatim (s : DBState) (A e : String)
    (hA : ∃ a ∈ s.activities, a.name = A)
    (he : (A, e) ∉ s.registrations) :
    (signup_for_activity s A e).1 =
      Except.ok ("Signed up " ++ e ++ " for " ++ A) ∧
    ∃ p ∈ load_activities (signup_for_activity s A e).2,
      p.1 = A ∧ e ∈ p.2.participants := by
  have h1 : (signup_for_activity s A e).1 =
      Except.ok ("Signed up " ++ e ++ " for " ++ A) := by
    rw [signup_success hA he]
  have h2 : (signup_for_activity s A e).2 =
      { s with registrations := s.registrations ++ [(A, e)] } := by
    rw [signup_success hA he]
  refine ⟨h1, ?_⟩
  rw [h2]
  obtain ⟨act, hact, hname⟩ := hA
  have hmemsort : (A, e) ∈ List.insertionSort regLe (s.registrations ++ [(A, e)]) :=
    (List.perm_insertionSort regLe _).mem_iff.mpr
      (List.mem_append_right _ (by simp))
  refine ⟨(act.name,
    { description := act.description
      schedule := act.schedule
      max_participants := act.max_participants
      participants :=
        ((List.insertionSort regLe (s.registrations ++ [(A, e)])).filter
          (fun r => r.1 == act.name)).map Prod.snd }), ?_, hname, ?_⟩
  · simp only [load_activities, List.mem_map]
    exact ⟨act, (List.perm_insertionSort nameLe _).mem_iff.mpr hact, rfl⟩
  · refine List.mem_map.mpr ⟨(A, e), List.mem_filter.mpr ⟨hmemsort, ?_⟩, rfl⟩
    simp [hname]

/-- Witness for C10 on the freshly seeded store with activity `Chess Club`
and the empty string as the email. -/
theorem signup_stores_email_verbatim_witness :
    (∃ a ∈ (init_db emptyDB).activities, a.name = "Chess Club") ∧
    ("Chess Club", "") ∉ (init_db emptyDB).registrations ∧
    (signup_for_activity (init_db emptyDB) "Chess Club" "").1 =
      Except.ok ("Signed up " ++ "" ++ " for " ++ "Chess Club") ∧
    ∃ p ∈ load_activities (signup_for_activity (init_db emptyDB) "Chess Club" "").2,
      p.1 = "Chess Club" ∧ "" ∈ p.2.participants := by
  have h := signup_stores_email_verbatim (init_db emptyDB) "Chess Club" ""
    (by decide) (by decide)
  exact ⟨by decide, by decide, h.1, h.2⟩

end SchoolApp
